import Mathlib

/-
Verification of the single-upstream caching reverse proxy
(package single, main.go) against its natural-language specification.

The Go source is shallowly embedded: int64 values become Int, byte
buffers become their lengths or Strings, channel interactions become
explicit event lists, and the goroutine/registry structure becomes a
small labelled transition system.  Every definition is transcribed from
the source file; line numbers in the comments refer to main.go.
-/

namespace CRProxy

/-! ## Tracking writer (main.go 254-292) -/

/-- State of a trackingWriter: declared size (Content-Length) and bytes
written so far.  The wrapped file and the notification channels carry no
information relevant to the byte counters, so they are not modelled here;
channel traffic is modelled on the reader side as event lists. -/
structure TrackingWriter where
  size : Int
  written : Int
deriving DecidableEq, Repr

/-- newTrackingWriter (main.go 262-269): written starts at 0. -/
def newTrackingWriter (size : Int) : TrackingWriter :=
  { size := size, written := 0 }

/-- trackingWriter.Write / update (main.go 271-286): the underlying
write returned n bytes; written increases by n.  The non-blocking
broadcast loop does not change written. -/
def TrackingWriter.write (w : TrackingWriter) (n : Int) : TrackingWriter :=
  { w with written := w.written + n }

/-- Run a sequence of write calls (the n returned by the wrapped writer
on each call) against a fresh tracking writer of the given size. -/
def twRun (size : Int) (ns : List Int) : TrackingWriter :=
  ns.foldl TrackingWriter.write (newTrackingWriter size)

/-! ## Partial reader (main.go 300-360) -/

/-- State of a partiallyDownloadedFile.  size is
r.trackingWriter.size; the wrapped file descriptor position is kept in
sync with pos by the seekBeforeRead mechanism, so only pos is kept. -/
structure PDFile where
  size : Int
  pos : Int
  readyPos : Int
  seekBeforeRead : Bool
deriving DecidableEq, Repr

/-- One observation made by the select in the Read wait loop
(main.go 313-320): either a value received from updateWritten, or the
done channel being closed, in which case the writer final written count
is read. -/
inductive ChanEv where
  | update (v : Int)
  | done (finalWritten : Int)
deriving DecidableEq, Repr

/-- The wait loop of Read (main.go 312-320): while pos ≥ readyPos,
receive either a progress update (new readyPos, re-check) or done
(readyPos := final written, break).  Returns the readyPos at loop exit,
or none when the supplied event list is exhausted while still waiting
(the reader stays parked). -/
def waitLoop (pos : Int) : Int → List ChanEv → Option Int
  | readyPos, [] => if pos < readyPos then some readyPos else none
  | readyPos, e :: rest =>
    if pos < readyPos then some readyPos
    else
      match e with
      | ChanEv.update v => waitLoop pos v rest
      | ChanEv.done w => some w

/-- Result of one Read call, as the pair Go returns plus the two
non-returning behaviours. -/
inductive ReadOutcome where
  /-- Returned (n, err) where eofErr records whether err = io.EOF
  (eofErr = false means err = nil). -/
  | ret (n : Int) (eofErr : Bool)
  /-- The wait loop never exits within the supplied events. -/
  | blocked
  /-- Models the Go runtime panic from the negative slice bound in
  p = p[:readyPos-pos] (main.go 329). -/
  | crash
deriving DecidableEq, Repr

/-- partiallyDownloadedFile.Read (main.go 308-334).  lenP is len(p);
fileLen is the number of bytes currently present in the wrapped temp
file (reads past it yield (0, io.EOF) from the wrapped os.File).
Transcription:
1. pos ≥ size: return (0, io.EOF).
2. wait loop (see waitLoop).
3. seekBeforeRead: wrapped.Seek(pos, SeekStart); always succeeds for
   the non-negative positions this type maintains; flag cleared.
4. if readyPos - pos < len(p) then p = p[:readyPos-pos]; a negative
   bound is a runtime panic.
5. wrapped.Read(p): zero-length p gives (0, nil); at end of the
   underlying file gives (0, io.EOF); otherwise up to len(p) bytes. -/
def pdfRead (r : PDFile) (lenP : Int) (evs : List ChanEv) (fileLen : Int) :
    ReadOutcome × PDFile :=
  if r.size ≤ r.pos then (ReadOutcome.ret 0 true, r)
  else
    match waitLoop r.pos r.readyPos evs with
    | none => (ReadOutcome.blocked, r)
    | some rp =>
      let r1 : PDFile := { r with readyPos := rp, seekBeforeRead := false }
      let plen : Int := if rp - r1.pos < lenP then rp - r1.pos else lenP
      if plen < 0 then (ReadOutcome.crash, r1)
      else if plen = 0 then (ReadOutcome.ret 0 false, r1)
      else
        let avail : Int := max 0 (fileLen - r1.pos)
        let n : Int := min plen avail
        if n = 0 then (ReadOutcome.ret 0 true, r1)
        else (ReadOutcome.ret n false, { r1 with pos := r1.pos + n })

/-- Errors returned by Seek (main.go 346, 349). -/
inductive SeekErr where
  | unsupportedWhence
  | negativePos
deriving DecidableEq, Repr

/-- partiallyDownloadedFile.Seek (main.go 336-354).  whence is the Go
int argument (io.SeekStart = 0, io.SeekCurrent = 1, io.SeekEnd = 2);
SeekEnd uses trackingWriter.size.  Returns the updated state and the
(int64, error) pair. -/
def pdfSeek (r : PDFile) (offset : Int) (whence : Int) :
    PDFile × Int × Option SeekErr :=
  if whence = 0 ∨ whence = 1 ∨ whence = 2 then
    let pos : Int :=
      if whence = 0 then offset
      else if whence = 1 then r.pos + offset
      else r.size + offset
    if pos < 0 then (r, r.pos, some SeekErr.negativePos)
    else ({ r with pos := pos, seekBeforeRead := true }, pos, none)
  else (r, r.pos, some SeekErr.unsupportedWhence)

/-- The absolute position a seek call aims at, per whence; none for an
unknown whence value. -/
def seekTarget (r : PDFile) (offset : Int) (whence : Int) : Option Int :=
  if whence = 0 then some offset
  else if whence = 1 then some (r.pos + offset)
  else if whence = 2 then some (r.size + offset)
  else none

/-! ## Downloader task (main.go 200-229) -/

/-- The externally visible actions of the downloader goroutine, in
program order. -/
inductive DAct where
  | chtimes (p : String) (modTime : Int)
  | closeWriter
  | rename (src : String) (dst : String)
  | remove (p : String)
  | deleteHandle (key : String)
  | closeBody
deriving DecidableEq, Repr

/-- The downloader goroutine body (main.go 200-229), as the sequence of
actions it performs.  copyErr is whether io.Copy returned an error;
chtimesErr is whether os.Chtimes would fail (only consulted when the
copy succeeded).  Note the shared err variable: after a successful
copy, err is reassigned to the os.Chtimes result (line 210), and the
rename/remove branch (lines 222-226) tests that same err. -/
def downloaderRun (tempPath cachePath cleanPath : String) (modTime : Int)
    (copyErr chtimesErr : Bool) : List DAct :=
  let errAfter : Bool := if copyErr then true else chtimesErr
  (if copyErr then [] else [DAct.chtimes tempPath modTime])
    ++ [DAct.closeWriter]
    ++ (if errAfter then [DAct.remove tempPath]
        else [DAct.rename tempPath cachePath])
    ++ [DAct.deleteHandle cleanPath, DAct.closeBody]

/-! ## Path cleaning (Go path.Clean / path.Join as used on lines 69-70) -/

/-- Split a character list at every slash (the segment decomposition
path.Clean works on). -/
def splitSlash : List Char → List (List Char)
  | [] => [[]]
  | c :: rest =>
    match splitSlash rest with
    | [] => [[]]
    | g :: gs => if c = '/' then [] :: g :: gs else (c :: g) :: gs

/-- Join segments back with slashes. -/
def joinSlash : List (List Char) → List Char
  | [] => []
  | [g] => g
  | g :: gs => g ++ '/' :: joinSlash gs

/-- Segment processing of Go path.Clean: empty and "." segments are
dropped; ".." pops the previous segment, except that at the root it is
dropped (rooted paths) or kept (relative paths).  acc holds processed
segments in reverse. -/
def cleanSegs (rooted : Bool) : List (List Char) → List (List Char) → List (List Char)
  | acc, [] => acc
  | acc, s :: rest =>
    if s = [] ∨ s = ['.'] then cleanSegs rooted acc rest
    else if s = ['.', '.'] then
      match acc with
      | [] =>
        if rooted then cleanSegs rooted [] rest
        else cleanSegs rooted [['.', '.']] rest
      | a :: tl =>
        if a = ['.', '.'] then cleanSegs rooted (['.', '.'] :: acc) rest
        else cleanSegs rooted tl rest
    else cleanSegs rooted (s :: acc) rest

/-- Go path.Clean. -/
def pathClean (p : String) : String :=
  if p = "" then "."
  else
    let rooted : Bool :=
      match p.data with
      | '/' :: _ => true
      | _ => false
    let segs := (cleanSegs rooted [] (splitSlash p.data)).reverse
    if rooted then
      if segs = [] then "/" else String.mk ('/' :: joinSlash segs)
    else
      if segs = [] then "." else String.mk (joinSlash segs)

/-- Go path.Join of two elements: Clean(a + "/" + b). -/
def pathJoin (a b : String) : String :=
  pathClean (a ++ "/" ++ b)

/-! ## HTTP-date codec

Go formats times with time.Format(http.TimeFormat) after .UTC()
(lines 90-91) and parses upstream Last-Modified with
time.Parse(http.TimeFormat, ...) (line 109).  Instants are modelled as
Int (UTC seconds); the RFC 7231 textual format is modelled as an
injective encoding of the instant, with a partial inverse. -/

/-- Models time.Time.UTC().Format(http.TimeFormat): an injective
encoding of the UTC instant as an HTTP-date string. -/
def httpDate (t : Int) : String :=
  "HTTP-date(" ++ toString t ++ ")"

/-- The leading characters of the modelled HTTP-date format. -/
def dateTag : List Char :=
  ['H', 'T', 'T', 'P', '-', 'd', 'a', 't', 'e', '(']

/-- Strip an expected leading character sequence, or fail. -/
def stripLead : List Char → List Char → Option (List Char)
  | [], cs => some cs
  | _ :: _, [] => none
  | p :: ps, c :: cs => if c = p then stripLead ps cs else none

/-- The numeric value of a decimal digit character. -/
def digitVal (c : Char) : Option Nat :=
  if '0' ≤ c ∧ c ≤ '9' then some (c.toNat - '0'.toNat) else none

/-- Accumulate decimal digits; fails on a non-digit. -/
def parseNatAux : List Char → Nat → Option Nat
  | [], acc => some acc
  | c :: cs, acc =>
    match digitVal c with
    | some d => parseNatAux cs (acc * 10 + d)
    | none => none

/-- Parse a (possibly negative) decimal integer; at least one digit. -/
def parseIntChars : List Char → Option Int
  | [] => none
  | '-' :: rest =>
    match rest with
    | [] => none
    | _ => (parseNatAux rest 0).map (fun n => -(n : Int))
  | cs => (parseNatAux cs 0).map (fun n => (n : Int))

/-- Models time.Parse(http.TimeFormat, s): some instant iff s is a
well-formed HTTP-date. -/
def parseHttpDate (s : String) : Option Int :=
  match stripLead dateTag s.data with
  | none => none
  | some rest =>
    match rest.reverse with
    | ')' :: revDigits => parseIntChars revDigits.reverse
    | _ => none

/-! ## Response writer (net/http ResponseWriter contract)

Headers changed after the first WriteHeader/Write have no effect on the
wire; the first Write with no prior WriteHeader commits status 200; a
later WriteHeader is superfluous and ignored.  This is the documented
net/http behaviour the handler runs against. -/

/-- The HTTP header names this program reads or writes.  Header names
are strings in Go; the embedding enumerates exactly the names occurring
in main.go (If-Modified-Since on the upstream request, the four
forwarded response headers, and the headers http.Error sets). -/
inductive HKey where
  | contentLength
  | lastModified
  | contentType
  | acceptRanges
  | xContentTypeOptions
  | ifModifiedSince
deriving DecidableEq, Repr

/-- Wire-level view of a ResponseWriter. -/
structure RW where
  committedStatus : Option Nat
  headers : List (HKey × List String)
  body : String
deriving DecidableEq, Repr

/-- The fresh ResponseWriter handed to ServeHTTP. -/
def rw0 : RW :=
  { committedStatus := none, headers := [], body := "" }

/-- Header lookup in a header list. -/
def findHeader : List (HKey × List String) → HKey → Option (List String)
  | [], _ => none
  | (k, v) :: rest, key => if k = key then some v else findHeader rest key

/-- Header removal, so that Set replaces any previous value. -/
def removeHeader : List (HKey × List String) → HKey → List (HKey × List String)
  | [], _ => []
  | (k, v) :: rest, key =>
    if k = key then removeHeader rest key
    else (k, v) :: removeHeader rest key

/-- w.Header().Set(k, v) (single value) or direct map assignment
(value list). -/
def setHeader (w : RW) (k : HKey) (v : List String) : RW :=
  { w with headers := (k, v) :: removeHeader w.headers k }

/-- Convenience: look a header up on a writer. -/
def RW.getHeader (w : RW) (k : HKey) : Option (List String) :=
  findHeader w.headers k

/-- w.WriteHeader(code): commits the status, unless a status is already
committed (then net/http logs "superfluous WriteHeader" and ignores
it). -/
def rwWriteHeader (w : RW) (code : Nat) : RW :=
  match w.committedStatus with
  | some _ => w
  | none => { w with committedStatus := some code }

/-- w.Write(s): appends to the body; if no status is committed yet,
net/http performs an implicit WriteHeader(200) first. -/
def rwWrite (w : RW) (s : String) : RW :=
  match w.committedStatus with
  | some _ => { w with body := w.body ++ s }
  | none => { w with committedStatus := some 200, body := w.body ++ s }

/-- http.StatusText for the codes this program uses. -/
def statusText (c : Nat) : String :=
  if c = 405 then "Method Not Allowed"
  else if c = 500 then "Internal Server Error"
  else if c = 502 then "Bad Gateway"
  else ""

/-- statusError (main.go 41-43), i.e. http.Error(w, StatusText(code),
code): sets Content-Type and X-Content-Type-Options, writes the status,
then the text plus a newline. -/
def statusError (w : RW) (code : Nat) : RW :=
  let w := setHeader w HKey.contentType ["text/plain; charset=utf-8"]
  let w := setHeader w HKey.xContentTypeOptions ["nosniff"]
  let w := rwWriteHeader w code
  rwWrite w (statusText code ++ "\n")

/-- http.ServeContent as called on lines 105 and 139, restricted to
requests without a Range header (the Request model carries none): sets
Last-Modified from the modtime argument when it is not the zero time,
advertises byte ranges, sets Content-Length, writes 200, and copies the
content for every method except HEAD.  (Content-Type sniffing is
irrelevant to the claims and omitted.) -/
def serveContent (w : RW) (method : String) (modTime : Int)
    (content : String) : RW :=
  let w := if modTime ≠ 0 then
      setHeader w HKey.lastModified [httpDate modTime] else w
  let w := setHeader w HKey.acceptRanges ["bytes"]
  let w := setHeader w HKey.contentLength [toString content.length]
  let w := rwWriteHeader w 200
  if method = "HEAD" then w else rwWrite w content

/-! ## Request pipeline (CachingReverseProxy.ServeHTTP, main.go 62-165) -/

/-- Cached file as seen through os.Open + Stat: content and mtime
(an Int UTC instant, see the HTTP-date codec). -/
structure FileInfo where
  content : String
  modTime : Int
deriving DecidableEq, Repr

/-- Proxy configuration (main.go 45-58).  upstreamURL is the
upstreamPrefix field of the Go struct. -/
structure ProxyCfg where
  upstreamURL : String
  cacheDir : String
deriving DecidableEq, Repr

/-- The downstream request: method and URL path. -/
structure Request where
  method : String
  urlPath : String
deriving DecidableEq, Repr

/-- The request ServeHTTP builds for the upstream (main.go 71-94):
method, URL and the headers explicitly set on it (http.NewRequest
starts with an empty header map). -/
structure UpstreamReq where
  method : String
  url : String
  headers : List (HKey × String)
deriving DecidableEq, Repr

/-- The upstream response as the handler consumes it: status code,
ContentLength (-1 when unknown), the raw Last-Modified header value
(Header.Get returns "" when absent), the Accept-Ranges value list, the
Content-Type value list when the key is present, and the body. -/
structure UpstreamResp where
  statusCode : Nat
  contentLength : Int
  lastModified : String
  acceptRanges : List String
  contentType : Option (List String)
  body : String
deriving DecidableEq, Repr

/-- The loop over Header["Accept-Ranges"] looking for the value
"bytes" (main.go 114-120). -/
def hasBytesToken : List String → Bool
  | [] => false
  | v :: rest => if v = "bytes" then true else hasBytesToken rest

/-- The Accept-Ranges scan result. -/
def hasAcceptRangeBytes (resp : UpstreamResp) : Bool :=
  hasBytesToken resp.acceptRanges

/-- The cachability test (main.go 125): GET, 200, Accept-Ranges bytes,
known Content-Length, parseable Last-Modified. -/
def isCachable (method : String) (resp : UpstreamResp) : Bool :=
  decide (method = "GET") && decide (resp.statusCode = 200)
    && hasAcceptRangeBytes resp && decide (resp.contentLength ≠ -1)
    && (parseHttpDate resp.lastModified).isSome

/-- Lookup of the cache file at a path, i.e. the outcome of
os.Open(cachePath) + Stat (main.go 80-94): some for a readable file,
none for the not-exist case (other open errors are logged and likewise
treated as absent). -/
def findFile : List (String × FileInfo) → String → Option FileInfo
  | [], _ => none
  | (k, fi) :: rest, key => if k = key then some fi else findFile rest key

/-- The pass-through response writer construction (main.go 144-157):
forward Content-Length when known, Last-Modified when it parsed,
Content-Type when the upstream provided the key, Accept-Ranges: bytes
when the upstream advertised it; then write the upstream status code.
No other upstream header is ever copied. -/
def passThroughRW (resp : UpstreamResp) : RW :=
  let w := rw0
  let w := if resp.contentLength ≠ -1 then
      setHeader w HKey.contentLength [toString resp.contentLength] else w
  let w := if (parseHttpDate resp.lastModified).isSome then
      setHeader w HKey.lastModified [resp.lastModified] else w
  let w := match resp.contentType with
    | some ct => setHeader w HKey.contentType ct
    | none => w
  let w := if hasAcceptRangeBytes resp then
      setHeader w HKey.acceptRanges ["bytes"] else w
  rwWriteHeader w resp.statusCode

/-- Everything ServeHTTP did that the claims observe: the response
written, the upstream request sent (none when the method gate returned
first), whether the cache path was probed, and whether this handler
invocation closed the upstream response body itself. -/
structure ServeOutput where
  rw : RW
  upstreamReq : Option UpstreamReq
  cacheProbed : Bool
  upstreamBodyClosed : Bool
deriving DecidableEq, Repr

/-- CachingReverseProxy.ServeHTTP (main.go 62-165).

fs is the cache directory contents (association list path to file);
upstream is the outcome of p.client.Do (none for a transport error);
getRes stands for the objectHandle.Get call on the cache-through
branch (error gives 500; ok carries the content the returned reader
yields) — the handle/registry mechanics themselves are modelled
separately as a transition system.

Transcription notes:
- Method gate (63-67): fmt.Fprintln(w, ...) writes the body FIRST,
  which commits status 200 through the implicit WriteHeader; the
  explicit WriteHeader(405) that follows is superfluous and dropped.
- Cache probe (80-94): a present file contributes If-Modified-Since
  with its mtime in UTC HTTP-date form; an absent file contributes no
  header.
- 304 branch (103-107): ServeContent over the already-open cache file
  with the captured mtime.  (With no cache file, the nil *os.File makes
  ServeContent fail its Seek and answer 500.)
- Cache-through branch (125-142): Get error gives 500; otherwise
  ServeContent over the returned reader with the parsed upstream
  Last-Modified.  The body is closed by Get or by the downloader it
  spawned, not by this frame.
- Pass-through (144-164): the four filtered headers, upstream status,
  body copied and upstream body closed only for GET. -/
def serveHTTP (cfg : ProxyCfg) (fs : List (String × FileInfo)) (r : Request)
    (upstream : Option UpstreamResp) (getRes : Except Unit String) :
    ServeOutput :=
  if r.method ≠ "HEAD" ∧ r.method ≠ "GET" then
    let w := rwWrite rw0 "Only HEAD or GET allowed\n"
    let w := rwWriteHeader w 405
    { rw := w, upstreamReq := none, cacheProbed := false,
      upstreamBodyClosed := false }
  else
    let cleanP := pathClean ("/" ++ r.urlPath)
    let cachePath := pathJoin cfg.cacheDir cleanP
    let cacheEntry := findFile fs cachePath
    let reqHeaders : List (HKey × String) :=
      match cacheEntry with
      | some fi => [(HKey.ifModifiedSince, httpDate fi.modTime)]
      | none => []
    let req : UpstreamReq :=
      { method := r.method, url := cfg.upstreamURL ++ cleanP,
        headers := reqHeaders }
    match upstream with
    | none =>
      { rw := statusError rw0 502, upstreamReq := some req,
        cacheProbed := true, upstreamBodyClosed := false }
    | some resp =>
      if resp.statusCode = 304 then
        match cacheEntry with
        | some fi =>
          { rw := serveContent rw0 r.method fi.modTime fi.content,
            upstreamReq := some req, cacheProbed := true,
            upstreamBodyClosed := false }
        | none =>
          { rw := statusError rw0 500, upstreamReq := some req,
            cacheProbed := true, upstreamBodyClosed := false }
      else if isCachable r.method resp then
        match getRes with
        | Except.error _ =>
          { rw := statusError rw0 500, upstreamReq := some req,
            cacheProbed := true, upstreamBodyClosed := true }
        | Except.ok content =>
          let mt := (parseHttpDate resp.lastModified).getD 0
          { rw := serveContent rw0 r.method mt content,
            upstreamReq := some req, cacheProbed := true,
            upstreamBodyClosed := true }
      else
        if r.method = "GET" then
          { rw := rwWrite (passThroughRW resp) resp.body,
            upstreamReq := some req, cacheProbed := true,
            upstreamBodyClosed := true }
        else
          { rw := passThroughRW resp, upstreamReq := some req,
            cacheProbed := true, upstreamBodyClosed := false }

/-! ## Handle registry transition system (main.go 125-141, 167-252)

The registry (p.objectHandles, a sync.Map) together with the per-handle
sync.Once serialises handle creation, initialization and removal.  Each
client request for an uncached cachable path executes, atomically with
respect to the registry: client.Do (line 97, BEFORE the registry is
consulted), LoadOrStore (127), once.Do (185) and the tempfile open of
Get (233-251).  The downloader goroutine finish executes the
disposition plus Delete (222-228).  These two are the events of the
system; the sync.Once makes the intermediate states of the merged
request event unobservable to other requests, so the atomic-event
granularity is faithful. -/

/-- Registry view of an objectHandle: whether the once latch is
consumed, and whether the init inside it succeeded (tempfile created,
tempPath set, downloader spawned).  initOK = false means tempPath is
still "" and no downloader exists. -/
structure HandleM where
  onceFired : Bool
  initOK : Bool
deriving DecidableEq, Repr

/-- Global state: the registry, the paths whose downloader goroutine is
alive, the number of client.Do calls issued to the upstream, the
number of downloader goroutines ever spawned, and the log of responses
(status, source tempfile served from if any), one per completed
request. -/
structure Sys where
  registry : List (String × HandleM)
  alive : List String
  upstreamCount : Nat
  spawned : Nat
  responses : List (Nat × Option String)
deriving DecidableEq, Repr

/-- The initial state: empty registry, nothing running. -/
def sys0 : Sys :=
  { registry := [], alive := [], upstreamCount := 0, spawned := 0,
    responses := [] }

/-- The tempfile a handle for path p downloads into (ioutil.TempFile
picks a random suffix; the model names it canonically — claims never
depend on the suffix, only on all readers of one handle sharing one
tempfile). -/
def tempName (p : String) : String := p ++ ".part"

/-- Registry lookup (sync.Map.Load). -/
def regFind : List (String × HandleM) → String → Option HandleM
  | [], _ => none
  | (k, h) :: rest, key => if k = key then some h else regFind rest key

/-- Registry deletion (sync.Map.Delete, main.go 228). -/
def regRemove : List (String × HandleM) → String → List (String × HandleM)
  | [], _ => []
  | (k, h) :: rest, key =>
    if k = key then regRemove rest key else (k, h) :: regRemove rest key

/-- Remove every occurrence of a path from the alive list (the
downloader goroutine for that path has exited). -/
def removeAll : List String → String → List String
  | [], _ => []
  | q :: rest, p =>
    if q = p then removeAll rest p else q :: removeAll rest p

/-- Events: a client request for an uncached cachable path p (the
upstream answered 200 with the cachable headers; initSucceeds says
whether MkdirAll/TempFile would succeed for this attempt), and the
completion of the downloader goroutine for p. -/
inductive Ev where
  | req (p : String) (initSucceeds : Bool)
  | finish (p : String)
deriving DecidableEq, Repr

/-- One event.  For req p:
- client.Do always runs first (line 97): upstreamCount increases for
  EVERY request, coalesced or not;
- LoadOrStore (127): an existing handle is reused, once.Do skips
  (latch consumed), and Get opens the handle tempPath: with initOK a
  partial reader over the tempfile serves 200; without initOK,
  tempPath is "", os.Open("") is not-exist, os.Open(cachePath) is
  not-exist too (path uncached), so Get errors and the client gets 500
  (lines 134-137) — regardless of initSucceeds, since the once latch
  never re-runs;
- a fresh handle is stored and once.Do runs init: on success the
  downloader is spawned and a partial reader over the tempfile serves
  200; on failure NO downloader is spawned, the handle stays in the
  registry (Delete happens only at line 228, inside the downloader),
  and the client gets 500.
For finish p: disposition done, goroutine exits, handle deleted. -/
def step (s : Sys) (e : Ev) : Sys :=
  match e with
  | Ev.req p initSucceeds =>
    let s1 : Sys := { s with upstreamCount := s.upstreamCount + 1 }
    match regFind s1.registry p with
    | some h =>
      if h.initOK then
        { s1 with responses := s1.responses ++ [(200, some (tempName p))] }
      else
        { s1 with responses := s1.responses ++ [(500, none)] }
    | none =>
      if initSucceeds then
        { s1 with
          registry := (p, { onceFired := true, initOK := true }) :: s1.registry,
          alive := p :: s1.alive,
          spawned := s1.spawned + 1,
          responses := s1.responses ++ [(200, some (tempName p))] }
      else
        { s1 with
          registry := (p, { onceFired := true, initOK := false }) :: s1.registry,
          responses := s1.responses ++ [(500, none)] }
  | Ev.finish p =>
    { s with alive := removeAll s.alive p,
             registry := regRemove s.registry p }

/-- Run a trace of events from the initial state. -/
def runTrace (evs : List Ev) : Sys :=
  evs.foldl step sys0

/-- The state after n concurrent requests for the same uncached
cachable path p, interleaved in some order (the registry serialises
them; any order gives this state), with the download still in
progress. -/
def runReqs (p : String) : Nat → Sys
  | 0 => sys0
  | n + 1 => step (runReqs p n) (Ev.req p true)

/-- The downloader-uniqueness invariant: no path has two live
downloaders, and every live downloader path is still registered. -/
def aliveInv (s : Sys) : Prop :=
  s.alive.Nodup ∧ ∀ q ∈ s.alive, regFind s.registry q ≠ none

/-! ## Helper lemmas -/

/-- The written counter of a run is the initial counter plus the sum of
the per-call counts. -/
theorem twFoldl_written (ns : List Int) (w : TrackingWriter) :
    (ns.foldl TrackingWriter.write w).written = w.written + ns.sum := by
  induction ns generalizing w with
  | nil => simp
  | cons n rest ih =>
    simp [List.foldl_cons, ih, TrackingWriter.write, add_assoc]

/-- The written counter after a run equals the sum of the write
counts. -/
theorem twRun_written (size : Int) (ns : List Int) :
    (twRun size ns).written = ns.sum := by
  simp [twRun, twFoldl_written, newTrackingWriter]

/-- The size field is constant across a run. -/
theorem twRun_size (size : Int) (ns : List Int) :
    (twRun size ns).size = size := by
  induction ns using List.reverseRecOn with
  | nil => rfl
  | append_singleton rest n ih =>
    simp [twRun, List.foldl_append, TrackingWriter.write] at ih ⊢
    simpa [twRun] using ih

/-- pdfSeek, factored through the target position: an unknown whence is
rejected, a negative target is rejected, and otherwise the position is
stored with seekBeforeRead raised. -/
theorem pdfSeek_eq (r : PDFile) (off w : Int) :
    pdfSeek r off w =
      match seekTarget r off w with
      | none => (r, r.pos, some SeekErr.unsupportedWhence)
      | some t =>
        if t < 0 then (r, r.pos, some SeekErr.negativePos)
        else ({ r with pos := t, seekBeforeRead := true }, t, none) := by
  by_cases h0 : w = 0
  · subst h0; simp [pdfSeek, seekTarget]
  · by_cases h1 : w = 1
    · subst h1; simp [pdfSeek, seekTarget]
    · by_cases h2 : w = 2
      · subst h2; simp [pdfSeek, seekTarget]
      · simp [pdfSeek, seekTarget, h0, h1, h2]

/-- The method gate condition is false for GET and HEAD. -/
theorem method_gate_false (r : Request)
    (hm : r.method = "GET" ∨ r.method = "HEAD") :
    ¬(r.method ≠ "HEAD" ∧ r.method ≠ "GET") := by
  rcases hm with h | h <;> simp [h]

/-- Writing a body does not change the headers. -/
theorem rwWrite_headers (w : RW) (s : String) :
    (rwWrite w s).headers = w.headers := by
  cases h : w.committedStatus <;> simp [rwWrite, h]

/-- Writing a body after the status is committed keeps the status and
appends to the body. -/
theorem rwWrite_committed (w : RW) (s : String) (c : Nat)
    (h : w.committedStatus = some c) :
    (rwWrite w s).committedStatus = some c ∧ (rwWrite w s).body = w.body ++ s := by
  simp [rwWrite, h]

/-- The empty string is a left identity of append. -/
theorem empty_append_str (s : String) : "" ++ s = s := rfl

/-- The pass-through writer: exactly the four conditional headers, the
upstream status, no body. -/
theorem passThroughRW_spec (resp : UpstreamResp) :
    (∀ kv ∈ (passThroughRW resp).headers,
      kv.fst = HKey.contentLength ∨ kv.fst = HKey.lastModified ∨
      kv.fst = HKey.contentType ∨ kv.fst = HKey.acceptRanges) ∧
    (passThroughRW resp).getHeader HKey.contentLength =
      (if resp.contentLength ≠ -1 then some [toString resp.contentLength]
       else none) ∧
    (passThroughRW resp).getHeader HKey.lastModified =
      (if (parseHttpDate resp.lastModified).isSome then
        some [resp.lastModified] else none) ∧
    (passThroughRW resp).getHeader HKey.contentType = resp.contentType ∧
    (passThroughRW resp).getHeader HKey.acceptRanges =
      (if hasAcceptRangeBytes resp then some ["bytes"] else none) ∧
    (passThroughRW resp).committedStatus = some resp.statusCode ∧
    (passThroughRW resp).body = "" := by
  rcases hct : resp.contentType with _ | ct <;>
    (simp only [passThroughRW, hct, RW.getHeader, rwWriteHeader, rw0]
     split_ifs <;> simp_all [setHeader, removeHeader, findHeader])

/-! ## Claim theorems -/

/-- Claim C1, counterexample: with a successful copy but a failing
os.Chtimes, the downloader does NOT rename the tempfile to the cache
path — the shared err variable sends it down the remove branch
instead.  The claim as stated (copy success implies rename) is false
at this input. -/
theorem c1_counterexample :
    DAct.rename "/c/x.part" "/c/x" ∉
      downloaderRun "/c/x.part" "/c/x" "/x" 7 false true ∧
    DAct.remove "/c/x.part" ∈
      downloaderRun "/c/x.part" "/c/x" "/x" 7 false true := by
  decide

/-- Claim C1 (amended): the downloader attempts the mtime change
exactly when the copy succeeded; it renames temp to cache exactly when
both the copy and the mtime change succeeded, and unlinks the tempfile
otherwise; in every case it closes the writer, closes the upstream
body, and removes the handle from the registry — in the program order
given by the equation. -/
theorem c1_downloader_disposition (tempPath cachePath cleanPath : String)
    (modTime : Int) (copyErr chtimesErr : Bool) :
    downloaderRun tempPath cachePath cleanPath modTime copyErr chtimesErr =
      (if copyErr then
        [DAct.closeWriter, DAct.remove tempPath,
         DAct.deleteHandle cleanPath, DAct.closeBody]
      else if chtimesErr then
        [DAct.chtimes tempPath modTime, DAct.closeWriter,
         DAct.remove tempPath, DAct.deleteHandle cleanPath, DAct.closeBody]
      else
        [DAct.chtimes tempPath modTime, DAct.closeWriter,
         DAct.rename tempPath cachePath, DAct.deleteHandle cleanPath,
         DAct.closeBody]) ∧
    DAct.closeWriter ∈
      downloaderRun tempPath cachePath cleanPath modTime copyErr chtimesErr ∧
    DAct.closeBody ∈
      downloaderRun tempPath cachePath cleanPath modTime copyErr chtimesErr ∧
    DAct.deleteHandle cleanPath ∈
      downloaderRun tempPath cachePath cleanPath modTime copyErr chtimesErr ∧
    (DAct.rename tempPath cachePath ∈
        downloaderRun tempPath cachePath cleanPath modTime copyErr chtimesErr ↔
      copyErr = false ∧ chtimesErr = false) ∧
    (DAct.remove tempPath ∈
        downloaderRun tempPath cachePath cleanPath modTime copyErr chtimesErr ↔
      copyErr = true ∨ chtimesErr = true) ∧
    (DAct.chtimes tempPath modTime ∈
        downloaderRun tempPath cachePath cleanPath modTime copyErr chtimesErr ↔
      copyErr = false) := by
  cases copyErr <;> cases chtimesErr <;> simp [downloaderRun]

/-- Claim C6: after the writer closed short (final written 5 of a
declared size 10), a read at the final readyPos does NOT return
end-of-stream: the buffer clamp leaves a zero-length buffer and the
call returns (0, nil).  The state is unchanged, so every subsequent
read call returns (0, nil) again — a caller copying until io.EOF loops
forever instead of seeing a truncated body. -/
theorem c6_short_download_read :
    pdfRead { size := 10, pos := 5, readyPos := 5, seekBeforeRead := false }
        4096 [ChanEv.done 5] 5 =
      (ReadOutcome.ret 0 false,
       { size := 10, pos := 5, readyPos := 5, seekBeforeRead := false }) ∧
    ReadOutcome.ret 0 false ≠ ReadOutcome.ret 0 true := by
  decide

/-- Claim C7: the seek contract.  The target position is computed from
whence 0/1/2 with SeekEnd relative to the declared size; an unknown
whence or a negative target is an error leaving the state unchanged; a
non-negative target (even past size) is stored with seekBeforeRead
raised and returned; and a read at a position at or past size returns
(0, io.EOF) at once. -/
theorem c7_seek_spec (r : PDFile) (off w lenP fileLen : Int)
    (evs : List ChanEv) :
    (seekTarget r off w = none →
      pdfSeek r off w = (r, r.pos, some SeekErr.unsupportedWhence)) ∧
    (∀ t, seekTarget r off w = some t → t < 0 →
      pdfSeek r off w = (r, r.pos, some SeekErr.negativePos)) ∧
    (∀ t, seekTarget r off w = some t → 0 ≤ t →
      pdfSeek r off w = ({ r with pos := t, seekBeforeRead := true }, t, none)) ∧
    (∀ t, seekTarget r off w = some t → 0 ≤ t → r.size ≤ t →
      pdfRead (pdfSeek r off w).fst lenP evs fileLen =
        (ReadOutcome.ret 0 true,
         { r with pos := t, seekBeforeRead := true })) := by
  refine ⟨?_, ?_, ?_, ?_⟩
  · intro h
    rw [pdfSeek_eq, h]
  · intro t ht hneg
    rw [pdfSeek_eq, ht]
    simp [hneg]
  · intro t ht hpos
    rw [pdfSeek_eq, ht]
    simp [not_lt.mpr hpos]
  · intro t ht hpos hsize
    rw [pdfSeek_eq, ht]
    simp only [not_lt.mpr hpos, if_false]
    simp [pdfRead, hsize]

/-- Claim C7, witness: seeking to 10 in a reader of size 5 succeeds and
the following read returns end-of-stream. -/
theorem c7_seek_spec_witness :
    pdfRead
        (pdfSeek
          { size := 5, pos := 0, readyPos := 0, seekBeforeRead := false }
          10 0).fst
        64 [] 0 =
      (ReadOutcome.ret 0 true,
       { size := 5, pos := 10, readyPos := 0, seekBeforeRead := true }) :=
  (c7_seek_spec
      { size := 5, pos := 0, readyPos := 0, seekBeforeRead := false }
      10 0 64 0 []).2.2.2 10 (by decide) (by decide) (by decide)

/-- Claim C8, counterexample: the tracking writer does not itself bound
written by size.  With declared size 1, a single successful underlying
write of 2 bytes leaves written = 2 > size; the bound relies on the
caller (the HTTP client truncates the body at Content-Length). -/
theorem c8_counterexample :
    ¬ ((twRun 1 [2]).written ≤ (twRun 1 [2]).size) := by
  decide

/-- Claim C8 (amended): over any sequence of write calls whose
underlying writer reports non-negative byte counts, written is
monotonically non-decreasing across calls and 0 ≤ written always
holds; written ≤ size additionally holds whenever the total bytes
written do not exceed size — which the enclosing program guarantees,
the HTTP client limiting the body to Content-Length. -/
theorem c8_tracking_writer_bounds (size : Int) (pre suf : List Int)
    (hpre : ∀ n ∈ pre, 0 ≤ n) (hsuf : ∀ n ∈ suf, 0 ≤ n) :
    0 ≤ (twRun size pre).written ∧
    (twRun size pre).written ≤ (twRun size (pre ++ suf)).written ∧
    ((pre ++ suf).sum ≤ size → (twRun size (pre ++ suf)).written ≤ size) := by
  have hps : 0 ≤ pre.sum := List.sum_nonneg hpre
  have hss : 0 ≤ suf.sum := List.sum_nonneg hsuf
  refine ⟨?_, ?_, ?_⟩
  · rw [twRun_written]; exact hps
  · rw [twRun_written, twRun_written, List.sum_append]; linarith
  · intro h; rw [twRun_written]; exact h

/-- Claim C8, witness: a concrete run of two writes inside the size
bound. -/
theorem c8_tracking_writer_bounds_witness :
    0 ≤ (twRun 3 [1]).written ∧
    (twRun 3 [1]).written ≤ (twRun 3 ([1] ++ [2])).written ∧
    (([1] ++ [2] : List Int).sum ≤ 3 → (twRun 3 ([1] ++ [2])).written ≤ 3) :=
  c8_tracking_writer_bounds 3 [1] [2] (by decide) (by decide)

/-- Claim C10: the wait loop CAN exit with readyPos − pos negative.
Starting from position 0, a seek to 8 followed by the writer finishing
short at 5 makes the loop exit through the done branch with
readyPos = 5 while pos = 8; the clamp p = p[:readyPos-pos] then slices
with bound −3, a runtime panic. -/
theorem c10_negative_clamp :
    (pdfSeek
      { size := 10, pos := 0, readyPos := 0, seekBeforeRead := false }
      8 0).fst.pos = 8 ∧
    pdfRead
        (pdfSeek
          { size := 10, pos := 0, readyPos := 0, seekBeforeRead := false }
          8 0).fst
        4096 [ChanEv.done 5] 5 =
      (ReadOutcome.crash,
       { size := 10, pos := 8, readyPos := 5, seekBeforeRead := false }) := by
  decide

/-- Claim C2: what the method gate actually sends.  At a POST, no cache
probe happens and no upstream request is issued, and the body is
"Only HEAD or GET allowed\n" — but the handler writes that body BEFORE
calling WriteHeader, so net/http commits status 200 and discards the
explicit WriteHeader(405): the client receives 200, not 405. -/
theorem c2_method_gate_actual :
    serveHTTP { upstreamURL := "http://up.example", cacheDir := "cache.d" } []
        { method := "POST", urlPath := "/x" } none (Except.ok "") =
      { rw := { committedStatus := some 200, headers := [],
                body := "Only HEAD or GET allowed\n" },
        upstreamReq := none, cacheProbed := false,
        upstreamBodyClosed := false } := by
  decide

/-- Claim C3: conditional revalidation.  For any GET or HEAD request,
the upstream request carries exactly the one header If-Modified-Since
with the cache file mtime in UTC HTTP-date form when a file exists at
the cache path, and no header at all otherwise; and when a cache file
exists (with a representable, non-zero mtime) and the upstream answers
304, the response serves the cached content (the full body for GET,
no body for HEAD, per the HEAD protocol rule ServeContent applies)
with Last-Modified equal to the cache file mtime in HTTP-date form. -/
theorem c3_conditional_revalidation (cfg : ProxyCfg)
    (fs : List (String × FileInfo)) (r : Request)
    (upstream : Option UpstreamResp) (getRes : Except Unit String)
    (hm : r.method = "GET" ∨ r.method = "HEAD") :
    ((serveHTTP cfg fs r upstream getRes).upstreamReq =
      some { method := r.method,
             url := cfg.upstreamURL ++ pathClean ("/" ++ r.urlPath),
             headers :=
               match findFile fs (pathJoin cfg.cacheDir
                   (pathClean ("/" ++ r.urlPath))) with
               | some fi => [(HKey.ifModifiedSince, httpDate fi.modTime)]
               | none => [] }) ∧
    (∀ fi resp,
      findFile fs (pathJoin cfg.cacheDir (pathClean ("/" ++ r.urlPath))) =
          some fi →
      upstream = some resp → resp.statusCode = 304 → fi.modTime ≠ 0 →
      (serveHTTP cfg fs r upstream getRes).rw.getHeader HKey.lastModified =
          some [httpDate fi.modTime] ∧
      (serveHTTP cfg fs r upstream getRes).rw.committedStatus = some 200 ∧
      (r.method = "GET" →
        (serveHTTP cfg fs r upstream getRes).rw.body = fi.content) ∧
      (r.method = "HEAD" →
        (serveHTTP cfg fs r upstream getRes).rw.body = "")) := by
  have hgate := method_gate_false r hm
  constructor
  · rcases upstream with _ | resp
    · simp [serveHTTP, if_neg hgate]
    · rcases hfi : findFile fs (pathJoin cfg.cacheDir
          (pathClean ("/" ++ r.urlPath))) with _ | fi <;>
        rcases getRes with e | content <;>
        by_cases h304 : resp.statusCode = 304 <;>
        by_cases hc : isCachable r.method resp = true <;>
        simp [serveHTTP, if_neg hgate, hfi, h304, hc]
      all_goals (split <;> rfl)
  · intro fi resp hfi hup h304 hmt
    subst hup
    have hred : (serveHTTP cfg fs r (some resp) getRes).rw =
        serveContent rw0 r.method fi.modTime fi.content := by
      simp [serveHTTP, if_neg hgate, hfi, h304]
    rw [hred]
    rcases hm with h | h <;>
      simp [serveContent, h, hmt, setHeader, removeHeader, findHeader,
        RW.getHeader, rwWriteHeader, rwWrite, rw0, empty_append_str]

/-- Claim C3, witness: a cached file at cache.d/x, a 304 upstream
answer, a GET request. -/
theorem c3_conditional_revalidation_witness :
    (serveHTTP { upstreamURL := "http://up.example", cacheDir := "cache.d" }
        [("cache.d/x", { content := "DATA", modTime := 77 })]
        { method := "GET", urlPath := "/x" }
        (some { statusCode := 304, contentLength := -1, lastModified := "",
                acceptRanges := [], contentType := none, body := "" })
        (Except.ok "")).upstreamReq =
      some { method := "GET", url := "http://up.example" ++ pathClean "/x",
             headers :=
               match findFile [("cache.d/x",
                   { content := "DATA", modTime := 77 })]
                   (pathJoin "cache.d" (pathClean "/x")) with
               | some fi => [(HKey.ifModifiedSince, httpDate fi.modTime)]
               | none => [] } ∧
    (serveHTTP { upstreamURL := "http://up.example", cacheDir := "cache.d" }
        [("cache.d/x", { content := "DATA", modTime := 77 })]
        { method := "GET", urlPath := "/x" }
        (some { statusCode := 304, contentLength := -1, lastModified := "",
                acceptRanges := [], contentType := none, body := "" })
        (Except.ok "")).rw.getHeader HKey.lastModified =
      some [httpDate 77] ∧
    (serveHTTP { upstreamURL := "http://up.example", cacheDir := "cache.d" }
        [("cache.d/x", { content := "DATA", modTime := 77 })]
        { method := "GET", urlPath := "/x" }
        (some { statusCode := 304, contentLength := -1, lastModified := "",
                acceptRanges := [], contentType := none, body := "" })
        (Except.ok "")).rw.body = "DATA" := by
  have h := c3_conditional_revalidation
    { upstreamURL := "http://up.example", cacheDir := "cache.d" }
    [("cache.d/x", { content := "DATA", modTime := 77 })]
    { method := "GET", urlPath := "/x" }
    (some { statusCode := 304, contentLength := -1, lastModified := "",
            acceptRanges := [], contentType := none, body := "" })
    (Except.ok "") (Or.inl rfl)
  refine ⟨h.1, ?_, ?_⟩
  · exact (h.2 { content := "DATA", modTime := 77 } _ (by decide) rfl rfl
      (by decide)).1
  · exact (h.2 { content := "DATA", modTime := 77 } _ (by decide) rfl rfl
      (by decide)).2.2.1 rfl

/-- Claim C4, counterexample: on the pass-through path for a HEAD
request the upstream body is NOT closed — upstreamResp.Body.Close()
sits inside the GET-only block (main.go 158-164) — refuting the
claimed unconditional "close the upstream body". -/
theorem c4_counterexample :
    (serveHTTP { upstreamURL := "http://up.example", cacheDir := "cache.d" }
        [] { method := "HEAD", urlPath := "/x" }
        (some { statusCode := 404, contentLength := -1, lastModified := "",
                acceptRanges := [], contentType := none, body := "" })
        (Except.ok "")).upstreamBodyClosed = false := by
  decide

/-- Claim C4 (amended): on the pass-through path the response carries
at most the four headers Content-Length (when known), Last-Modified
(when it parsed, with the raw upstream value), Content-Type (when
provided), Accept-Ranges: bytes (when advertised); the upstream status
code is written; the body is copied for GET and not for HEAD; and the
upstream body is closed for GET but NOT for HEAD. -/
theorem c4_pass_through (cfg : ProxyCfg) (fs : List (String × FileInfo))
    (r : Request) (resp : UpstreamResp) (getRes : Except Unit String)
    (hm : r.method = "GET" ∨ r.method = "HEAD")
    (h304 : resp.statusCode ≠ 304)
    (hnc : isCachable r.method resp = false) :
    (∀ kv ∈ (serveHTTP cfg fs r (some resp) getRes).rw.headers,
      kv.fst = HKey.contentLength ∨ kv.fst = HKey.lastModified ∨
      kv.fst = HKey.contentType ∨ kv.fst = HKey.acceptRanges) ∧
    (serveHTTP cfg fs r (some resp) getRes).rw.getHeader HKey.contentLength =
      (if resp.contentLength ≠ -1 then some [toString resp.contentLength]
       else none) ∧
    (serveHTTP cfg fs r (some resp) getRes).rw.getHeader HKey.lastModified =
      (if (parseHttpDate resp.lastModified).isSome then
        some [resp.lastModified] else none) ∧
    (serveHTTP cfg fs r (some resp) getRes).rw.getHeader HKey.contentType =
      resp.contentType ∧
    (serveHTTP cfg fs r (some resp) getRes).rw.getHeader HKey.acceptRanges =
      (if hasAcceptRangeBytes resp then some ["bytes"] else none) ∧
    (serveHTTP cfg fs r (some resp) getRes).rw.committedStatus =
      some resp.statusCode ∧
    (r.method = "GET" →
      (serveHTTP cfg fs r (some resp) getRes).rw.body = resp.body ∧
      (serveHTTP cfg fs r (some resp) getRes).upstreamBodyClosed = true) ∧
    (r.method = "HEAD" →
      (serveHTTP cfg fs r (some resp) getRes).rw.body = "" ∧
      (serveHTTP cfg fs r (some resp) getRes).upstreamBodyClosed = false) := by
  have hgate := method_gate_false r hm
  obtain ⟨hsub, hcl, hlm, hct, har, hst, hbody⟩ := passThroughRW_spec resp
  rcases hm with h | h
  · rw [h] at hnc
    have hrw : (serveHTTP cfg fs r (some resp) getRes).rw =
        rwWrite (passThroughRW resp) resp.body := by
      rcases hfi : findFile fs (pathJoin cfg.cacheDir
          (pathClean ("/" ++ r.urlPath))) with _ | fi <;>
        simp [serveHTTP, if_neg hgate, hfi, h304, hnc, h]
    have hclosed : (serveHTTP cfg fs r (some resp) getRes).upstreamBodyClosed =
        true := by
      rcases hfi : findFile fs (pathJoin cfg.cacheDir
          (pathClean ("/" ++ r.urlPath))) with _ | fi <;>
        simp [serveHTTP, if_neg hgate, hfi, h304, hnc, h]
    rw [hrw]
    refine ⟨?_, ?_, ?_, ?_, ?_, ?_, ?_, ?_⟩
    · intro kv hkv
      rw [rwWrite_headers] at hkv
      exact hsub kv hkv
    · simpa [RW.getHeader, rwWrite_headers] using hcl
    · simpa [RW.getHeader, rwWrite_headers] using hlm
    · simpa [RW.getHeader, rwWrite_headers] using hct
    · simpa [RW.getHeader, rwWrite_headers] using har
    · exact (rwWrite_committed (passThroughRW resp) resp.body
        resp.statusCode hst).1
    · intro _
      refine ⟨?_, hclosed⟩
      have hbw := (rwWrite_committed (passThroughRW resp) resp.body
        resp.statusCode hst).2
      rw [hbw, hbody, empty_append_str]
    · intro hcontra
      rw [h] at hcontra
      exact absurd hcontra (by decide)
  · rw [h] at hnc
    have hne : r.method ≠ "GET" := by
      rw [h]; decide
    have hrw : (serveHTTP cfg fs r (some resp) getRes).rw =
        passThroughRW resp := by
      rcases hfi : findFile fs (pathJoin cfg.cacheDir
          (pathClean ("/" ++ r.urlPath))) with _ | fi <;>
        simp [serveHTTP, if_neg hgate, hfi, h304, hnc, hne, h]
    have hclosed : (serveHTTP cfg fs r (some resp) getRes).upstreamBodyClosed =
        false := by
      rcases hfi : findFile fs (pathJoin cfg.cacheDir
          (pathClean ("/" ++ r.urlPath))) with _ | fi <;>
        simp [serveHTTP, if_neg hgate, hfi, h304, hnc, hne, h]
    rw [hrw]
    exact ⟨hsub, hcl, hlm, hct, har, hst,
      fun hcontra => absurd hcontra hne,
      fun _ => ⟨hbody, hclosed⟩⟩

/-- Claim C4, witness: a GET pass-through of a 404 with a known length
and a Content-Type. -/
theorem c4_pass_through_witness :
    (serveHTTP { upstreamURL := "http://up.example", cacheDir := "cache.d" }
        [] { method := "GET", urlPath := "/x" }
        (some { statusCode := 404, contentLength := 5, lastModified := "",
                acceptRanges := [], contentType := some ["text/html"],
                body := "hello" })
        (Except.ok "")).rw.committedStatus = some 404 ∧
    (serveHTTP { upstreamURL := "http://up.example", cacheDir := "cache.d" }
        [] { method := "GET", urlPath := "/x" }
        (some { statusCode := 404, contentLength := 5, lastModified := "",
                acceptRanges := [], contentType := some ["text/html"],
                body := "hello" })
        (Except.ok "")).rw.body = "hello" ∧
    (serveHTTP { upstreamURL := "http://up.example", cacheDir := "cache.d" }
        [] { method := "GET", urlPath := "/x" }
        (some { statusCode := 404, contentLength := 5, lastModified := "",
                acceptRanges := [], contentType := some ["text/html"],
                body := "hello" })
        (Except.ok "")).upstreamBodyClosed = true := by
  have h := c4_pass_through
    { upstreamURL := "http://up.example", cacheDir := "cache.d" } []
    { method := "GET", urlPath := "/x" }
    { statusCode := 404, contentLength := 5, lastModified := "",
      acceptRanges := [], contentType := some ["text/html"],
      body := "hello" }
    (Except.ok "") (Or.inl rfl) (by decide) (by decide)
  exact ⟨h.2.2.2.2.2.1, (h.2.2.2.2.2.2.1 rfl).1, (h.2.2.2.2.2.2.1 rfl).2⟩

/-- Membership after removing a path from the alive list. -/
theorem mem_removeAll (l : List String) (p q : String) :
    q ∈ removeAll l p ↔ (q ∈ l ∧ q ≠ p) := by
  induction l with
  | nil => simp [removeAll]
  | cons a rest ih =>
    rw [removeAll]
    by_cases ha : a = p
    · rw [if_pos ha, ih]
      subst ha
      simp only [List.mem_cons]
      constructor
      · rintro ⟨hq, hqp⟩
        exact ⟨Or.inr hq, hqp⟩
      · rintro ⟨hq | hq, hqp⟩
        · exact absurd hq hqp
        · exact ⟨hq, hqp⟩
    · rw [if_neg ha]
      simp only [List.mem_cons, ih]
      constructor
      · rintro (rfl | ⟨hq, hqp⟩)
        · exact ⟨Or.inl rfl, fun hc => ha hc⟩
        · exact ⟨Or.inr hq, hqp⟩
      · rintro ⟨rfl | hq, hqp⟩
        · exact Or.inl rfl
        · exact Or.inr ⟨hq, hqp⟩

/-- Removing a path preserves duplicate-freedom of the alive list. -/
theorem nodup_removeAll (l : List String) (p : String) (h : l.Nodup) :
    (removeAll l p).Nodup := by
  induction l with
  | nil => simp [removeAll]
  | cons a rest ih =>
    rcases List.nodup_cons.mp h with ⟨ha, hrest⟩
    by_cases hap : a = p
    · simpa [removeAll, hap] using ih hrest
    · rw [removeAll, if_neg hap]
      refine List.nodup_cons.mpr ⟨?_, ih hrest⟩
      intro hmem
      exact ha ((mem_removeAll rest p a).mp hmem).1

/-- Deleting one key leaves lookups of other keys unchanged. -/
theorem regFind_regRemove (reg : List (String × HandleM)) (p q : String)
    (h : q ≠ p) :
    regFind (regRemove reg p) q = regFind reg q := by
  induction reg with
  | nil => rfl
  | cons kv rest ih =>
    rcases kv with ⟨k, hd⟩
    by_cases hk : k = p
    · subst hk
      rw [regRemove, if_pos rfl, regFind, if_neg (fun hkq => h hkq.symm), ih]
    · rw [regRemove, if_neg hk, regFind, regFind]
      by_cases hkq : k = q
      · rw [if_pos hkq, if_pos hkq]
      · rw [if_neg hkq, if_neg hkq, ih]

/-- Every step preserves the downloader-uniqueness invariant. -/
theorem step_aliveInv (s : Sys) (e : Ev) (h : aliveInv s) :
    aliveInv (step s e) := by
  obtain ⟨hnd, hreg⟩ := h
  cases e with
  | req p init =>
    dsimp only [step]
    cases hf : regFind s.registry p with
    | some hdl =>
      dsimp only
      by_cases hio : hdl.initOK = true
      · rw [if_pos hio]
        exact ⟨hnd, hreg⟩
      · rw [if_neg hio]
        exact ⟨hnd, hreg⟩
    | none =>
      dsimp only
      by_cases hin : init = true
      · rw [if_pos hin]
        refine ⟨List.nodup_cons.mpr ⟨fun hp => (hreg p hp) hf, hnd⟩, ?_⟩
        intro q hq
        rcases List.mem_cons.mp hq with rfl | hq2
        · simp [regFind]
        · rw [regFind]
          by_cases hpq : p = q
          · simp [hpq]
          · rw [if_neg hpq]
            exact hreg q hq2
      · rw [if_neg hin]
        refine ⟨hnd, ?_⟩
        intro q hq
        rw [regFind]
        by_cases hpq : p = q
        · simp [hpq]
        · rw [if_neg hpq]
          exact hreg q hq
  | finish p =>
    dsimp only [step]
    refine ⟨nodup_removeAll s.alive p hnd, ?_⟩
    intro q hq
    obtain ⟨hql, hqp⟩ := (mem_removeAll s.alive p q).mp hq
    rw [regFind_regRemove s.registry p q hqp]
    exact hreg q hql

/-- The invariant holds along every trace from any invariant state. -/
theorem foldl_aliveInv (evs : List Ev) (s : Sys) (h : aliveInv s) :
    aliveInv (evs.foldl step s) := by
  induction evs generalizing s with
  | nil => exact h
  | cons e rest ih => exact ih (step s e) (step_aliveInv s e h)

/-- Closed form of the N-requests-one-path scenario: after the first
request the handle exists with one spawned downloader; later requests
only add responses and upstream calls. -/
theorem runReqs_closed_form (p : String) (n : Nat) :
    runReqs p n =
      (if n = 0 then sys0 else
        { registry := [(p, { onceFired := true, initOK := true })],
          alive := [p], upstreamCount := n, spawned := 1,
          responses := List.replicate n (200, some (tempName p)) }) := by
  induction n with
  | zero => rfl
  | succ m ih =>
    rw [runReqs, ih]
    by_cases hm : m = 0
    · subst hm
      simp [step, sys0, regFind]
    · simp [hm, step, regFind, List.replicate_succ']

/-- Claim C5: when MkdirAll (or TempFile) fails inside the once-only
init, the client gets 500 — but the handle is NOT released: it stays
in the registry with its once latch consumed and no downloader
spawned, so a second request for the same path (even with the
filesystem healthy again) is answered 500 instead of starting a fresh
download cycle. -/
theorem c5_init_failure_behavior :
    (runTrace [Ev.req "/a/b" false]).responses = [(500, none)] ∧
    (runTrace [Ev.req "/a/b" false]).spawned = 0 ∧
    regFind (runTrace [Ev.req "/a/b" false]).registry "/a/b" =
      some { onceFired := true, initOK := false } ∧
    (runTrace [Ev.req "/a/b" false, Ev.req "/a/b" true]).responses =
      [(500, none), (500, none)] ∧
    regFind (runTrace [Ev.req "/a/b" false, Ev.req "/a/b" true]).registry
      "/a/b" ≠ none := by
  decide

/-- Claim C9: for N concurrent requests for the same uncached path,
exactly one downloader (the single body download into the cache
tempfile) is ever spawned while the handle is live, it is the only
live downloader for the path, and all N clients are served 200 from
the same single tempfile copy; moreover along ANY event trace the
alive downloaders are duplicate-free and each is still registered.
(Each of the N requests still performs its own upstream client.Do —
upstreamCount = n — whose response body feeds at most the one
downloader.) -/
theorem c9_download_coalescence :
    (∀ p n, (runReqs p n).spawned = (if n = 0 then 0 else 1) ∧
      (runReqs p n).alive = (if n = 0 then [] else [p]) ∧
      (runReqs p n).upstreamCount = n ∧
      (runReqs p n).responses = List.replicate n (200, some (tempName p))) ∧
    (∀ evs, (runTrace evs).alive.Nodup ∧
      ∀ q ∈ (runTrace evs).alive, regFind (runTrace evs).registry q ≠ none) := by
  constructor
  · intro p n
    rw [runReqs_closed_form]
    by_cases hn : n = 0 <;> simp [hn, sys0]
  · intro evs
    exact foldl_aliveInv evs sys0 ⟨List.nodup_nil, by simp [sys0]⟩

/-- Claim C9, witness: two concurrent requests, one download, both
served from the one tempfile; the single live downloader is
registered. -/
theorem c9_download_coalescence_witness :
    (runReqs "/big" 2).spawned = (if (2 : Nat) = 0 then 0 else 1) ∧
    (runReqs "/big" 2).upstreamCount = 2 ∧
    (runReqs "/big" 2).responses =
      List.replicate 2 (200, some (tempName "/big")) ∧
    regFind (runTrace [Ev.req "/big" true]).registry "/big" ≠ none :=
  ⟨(c9_download_coalescence.1 "/big" 2).1,
   (c9_download_coalescence.1 "/big" 2).2.2.1,
   (c9_download_coalescence.1 "/big" 2).2.2.2,
   (c9_download_coalescence.2 [Ev.req "/big" true]).2 "/big" (by decide)⟩

end CRProxy


